import Mathlib

/-!
Verification of the local persistence and query layer of a note-taking
application: `notesService` (per-user note CRUD over an async key-value
store), `authService` (account registration, login, session pointer), and
the filter stage of the notes list screen's `applyFiltersAndSort`.

The key-value store (AsyncStorage) is modelled as a total map from string
keys to cells, together with per-key read/write fault flags: a read on a
key whose read flag is set models `getItem` throwing, and a write on a key
whose write flag is set models `setItem` throwing.  A cell either is
absent, holds a well-formed JSON array of notes, holds a well-formed JSON
array of users, holds a plain (non-JSON) string as written for the session
pointer, or holds a malformed value on which `JSON.parse` throws.

Time: each `Date.now()` invocation is modelled as its own natural-number
parameter of the operation, in source order — `createNote` performs three
reads (id, `createdAt`, `updatedAt`) and so takes three clock parameters,
`updateNote` performs one read and takes one — so the millisecond clock
may or may not tick between consecutive reads.  The random id suffix
`Math.random().toString(36).substr(2, 9)` is modelled as an arbitrary
string parameter.
-/

namespace Highway

/-- The `Note` record of `notesService`: `{id, title, body, imageUri?,
createdAt, updatedAt}`. -/
structure Note where
  id : String
  title : String
  body : String
  imageUri : Option String
  createdAt : Nat
  updatedAt : Nat
deriving DecidableEq, Repr

/-- The `User` record of `authService`: `{username, password}`. -/
structure User where
  username : String
  password : String
deriving DecidableEq, Repr

/-- One stored value of the key-value store.  `strVal` is a plain string
as written for the current-user pointer; `malformed` is a value on which
`JSON.parse` throws. -/
inductive Cell where
  | absent
  | notesVal (ns : List Note)
  | usersVal (us : List User)
  | strVal (s : String)
  | malformed
deriving DecidableEq

/-- The AsyncStorage collaborator: data per key plus per-key fault flags
(`readFails k` models `getItem(k)` throwing, `writeFails k` models
`setItem(k, _)` throwing). -/
structure Store where
  data : String → Cell
  readFails : String → Bool
  writeFails : String → Bool

/-- `AsyncStorage.getItem`: either throws (`Except.error`) or returns the
cell at the key. -/
def Store.getItem (st : Store) (k : String) : Except Unit Cell :=
  if st.readFails k then Except.error () else Except.ok (st.data k)

/-- `AsyncStorage.setItem`: either throws (`none`) or overwrites the whole
value at the key, leaving every other key and the fault flags unchanged. -/
def Store.setItem (st : Store) (k : String) (v : Cell) : Option Store :=
  if st.writeFails k then none
  else some { st with data := fun q => if q = k then v else st.data q }

/-- The per-user partition key: `` `@notes_${username}` ``. -/
def getNotesKey (username : String) : String := "@notes_" ++ username

/-- `notesService.getNotes`: reads the collection key; returns `[]` when
the key is absent, when the read throws, or when the stored value is not a
well-formed notes array (`JSON.parse` throws inside the `try`, and the
`catch` returns `[]`).  A plain-string or users-array cell never occurs
under a notes key through this service; both are mapped to the degraded
`[]` result. -/
def getNotes (st : Store) (username : String) : List Note :=
  match st.getItem (getNotesKey username) with
  | Except.error _ => []
  | Except.ok Cell.absent => []
  | Except.ok (Cell.notesVal ns) => ns
  | Except.ok _ => []

/-- `notesService.getNote`: linear search of the `getNotes` result by id;
`note.find(...) || null` is the first match or `none`. -/
def getNote (st : Store) (username noteId : String) : Option Note :=
  List.find? (fun note => note.id == noteId) (getNotes st username)

/-- The caller-supplied fields of `createNote`:
`Omit<Note, 'id' | 'createdAt' | 'updatedAt'>`. -/
structure NoteFields where
  title : String
  body : String
  imageUri : Option String
deriving DecidableEq, Repr

/-- The generated id `Date.now().toString() + Math.random().toString(36).substr(2, 9)`:
decimal timestamp text followed by the random suffix. -/
def genId (now : Nat) (suffix : String) : String := Nat.repr now ++ suffix

/-- `notesService.createNote`: appends a freshly stamped note to the
collection read by `getNotes` and writes the whole collection back; a write
fault leaves the store unchanged and throws `'Failed to create note'`.
The three `Date.now()` reads of the source — inside the generated id, for
`createdAt`, and for `updatedAt` — are three separate clock parameters
`nowId`, `nowCreated`, `nowUpdated`, in source order; nothing forces them
to coincide. -/
def createNote (st : Store) (username : String) (fields : NoteFields)
    (nowId nowCreated nowUpdated : Nat) (suffix : String) :
    Store × Except String Note :=
  let notes := getNotes st username
  let newNote : Note :=
    { id := genId nowId suffix, title := fields.title, body := fields.body,
      imageUri := fields.imageUri, createdAt := nowCreated,
      updatedAt := nowUpdated }
  match st.setItem (getNotesKey username) (Cell.notesVal (notes ++ [newNote])) with
  | some st2 => (st2, Except.ok newNote)
  | none => (st, Except.error "Failed to create note")

/-- The caller-supplied partial fields of `updateNote`
(`Partial<Omit<Note, 'id' | 'createdAt'>>`): `none` means the key is
absent from the partial object.  A supplied `updatedAt` would be
overwritten by the forced `updatedAt: Date.now()` spread after it, so it
is not carried here. -/
structure NoteUpdates where
  title : Option String
  body : Option String
  imageUri : Option String
deriving DecidableEq, Repr

/-- The merge `{...notes[index], ...updates, updatedAt: Date.now()}`:
supplied fields override, `updatedAt` is forced to `now`, `id` and
`createdAt` are never touched. -/
def applyUpdates (note : Note) (updates : NoteUpdates) (now : Nat) : Note :=
  { note with
    title := updates.title.getD note.title
    body := updates.body.getD note.body
    imageUri := match updates.imageUri with
      | some u => some u
      | none => note.imageUri
    updatedAt := now }

/-- The `findIndex` + `notes[index] = {...}` step of `updateNote`: replace
the first note whose id matches with the merged note, returning the new
collection and the merged note, or `none` when no id matches
(`findIndex` returned `-1`). -/
def updateFirst (notes : List Note) (noteId : String) (updates : NoteUpdates)
    (now : Nat) : Option (List Note × Note) :=
  match notes with
  | [] => none
  | note :: rest =>
    if note.id == noteId then
      let updated := applyUpdates note updates now
      some (updated :: rest, updated)
    else
      match updateFirst rest noteId updates now with
      | some (rest2, updated) => some (note :: rest2, updated)
      | none => none

/-- `notesService.updateNote`.  Note that the `throw new Error('Note not
found')` on a missing id sits inside the `try` block, so it is caught by
the function's own `catch` and replaced: the error that escapes is
`'Failed to update note'` both when the id is missing and when the storage
write throws. -/
def updateNote (st : Store) (username noteId : String) (updates : NoteUpdates)
    (now : Nat) : Store × Except String Note :=
  let notes := getNotes st username
  match updateFirst notes noteId updates now with
  | none => (st, Except.error "Failed to update note")
  | some (notes2, updated) =>
    match st.setItem (getNotesKey username) (Cell.notesVal notes2) with
    | some st2 => (st2, Except.ok updated)
    | none => (st, Except.error "Failed to update note")

/-- `notesService.deleteNote`: keeps exactly the notes whose id differs
(`note.id !== noteId` removes every match), writes the filtered collection
back; a write fault throws `'Failed to delete note'`. -/
def deleteNote (st : Store) (username noteId : String) :
    Store × Except String Unit :=
  let notes := getNotes st username
  let filteredNotes := List.filter (fun note => note.id != noteId) notes
  match st.setItem (getNotesKey username) (Cell.notesVal filteredNotes) with
  | some st2 => (st2, Except.ok ())
  | none => (st, Except.error "Failed to delete note")

/-- `'@users'`. -/
def USERS_KEY : String := "@users"

/-- `'@current_user'`. -/
def CURRENT_USER_KEY : String := "@current_user"

/-- The outcome record `{ success: boolean; error?: string }` returned by
`signUp` and `login`. -/
structure OpResult where
  success : Bool
  error : Option String
deriving DecidableEq, Repr

/-- The shared prologue of the `authService` methods:
`AsyncStorage.getItem(USERS_KEY)` followed by `usersJson ?
JSON.parse(usersJson) : []`.  `Except.error` is reached when the read
throws or when the stored value makes `JSON.parse` throw; an absent key
yields `[]`. -/
def readUsers (st : Store) : Except Unit (List User) :=
  match st.getItem USERS_KEY with
  | Except.error _ => Except.error ()
  | Except.ok Cell.absent => Except.ok []
  | Except.ok (Cell.usersVal us) => Except.ok us
  | Except.ok _ => Except.error ()

/-- `authService.signUp`: duplicate exact username → `'Username already
exists'` with no write; otherwise append `{username, password}` and
persist the whole list; any thrown error → `'Failed to sign up'`. -/
def signUp (st : Store) (username password : String) : Store × OpResult :=
  match readUsers st with
  | Except.error _ => (st, ⟨false, some "Failed to sign up"⟩)
  | Except.ok users =>
    if users.any (fun user => user.username == username) then
      (st, ⟨false, some "Username already exists"⟩)
    else
      match st.setItem USERS_KEY (Cell.usersVal (users ++ [⟨username, password⟩])) with
      | some st2 => (st2, ⟨true, none⟩)
      | none => (st, ⟨false, some "Failed to sign up"⟩)

/-- `authService.login`: exact `(username, password)` match; no match →
`'Invalid username or password'` with no write; on a match the session
pointer is set to the username; any thrown error → `'Failed to login'`. -/
def login (st : Store) (username password : String) : Store × OpResult :=
  match readUsers st with
  | Except.error _ => (st, ⟨false, some "Failed to login"⟩)
  | Except.ok users =>
    match List.find? (fun u => u.username == username && u.password == password) users with
    | none => (st, ⟨false, some "Invalid username or password"⟩)
    | some _ =>
      match st.setItem CURRENT_USER_KEY (Cell.strVal username) with
      | some st2 => (st2, ⟨true, none⟩)
      | none => (st, ⟨false, some "Failed to login"⟩)

/-- `String.prototype.includes` over the characters of the receiver: the
pattern occurs as a contiguous run somewhere in the haystack (the empty
pattern always occurs). -/
def containsSub : List Char → List Char → Bool
  | [], pat => pat.isEmpty
  | c :: rest, pat => pat.isPrefixOf (c :: rest) || containsSub rest pat

/-- `hay.includes(pat)` on strings. -/
def strIncludes (hay pat : String) : Bool := containsSub hay.data pat.data

/-- `String.prototype.toLowerCase`, characterwise. -/
def lowerStr (s : String) : String := String.mk (s.data.map Char.toLower)

/-- The match predicate of the filter stage of `applyFiltersAndSort`:
`note.title.toLowerCase().includes(lowerQuery) ||
note.body.toLowerCase().includes(lowerQuery)`. -/
def noteMatches (lowerQuery : String) (note : Note) : Bool :=
  strIncludes (lowerStr note.title) lowerQuery ||
    strIncludes (lowerStr note.body) lowerQuery

/-- The truthiness test `if (query.trim())`: the trimmed query is
non-empty exactly when some character of the query is not whitespace. -/
def queryNonBlank (query : String) : Bool :=
  query.data.any (fun c => !c.isWhitespace)

/-- The filter stage (the `query.trim()` guard and `notesToFilter.filter`)
of `applyFiltersAndSort`: a blank query leaves the input untouched;
otherwise keep the notes whose lowercased title or body contains the
lowercased query. -/
def filterNotes (notesToFilter : List Note) (query : String) : List Note :=
  if queryNonBlank query then
    List.filter (noteMatches (lowerStr query)) notesToFilter
  else
    notesToFilter

/-! ### Helper lemmas about the store -/

/-- A successful `setItem` overwrites exactly the written key and keeps the
fault flags. -/
theorem setItem_some_spec (st : Store) (key : String) (cell : Cell) (st2 : Store)
    (h : st.setItem key cell = some st2) :
    st2.data = (fun q => if q = key then cell else st.data q) ∧
    st2.readFails = st.readFails ∧ st2.writeFails = st.writeFails := by
  unfold Store.setItem at h
  by_cases hw : st.writeFails key
  · simp [hw] at h
  · simp [hw] at h
    subst h
    exact ⟨rfl, rfl, rfl⟩

/-- On a key whose write flag is clear, `setItem` succeeds with the
pointwise-updated store. -/
theorem setItem_of_writeOk (st : Store) (key : String) (cell : Cell)
    (hw : st.writeFails key = false) :
    st.setItem key cell =
      some { st with data := fun q => if q = key then cell else st.data q } := by
  simp [Store.setItem, hw]

/-- `getNotes` only looks at the read flag and the cell of the user's
collection key. -/
theorem getNotes_congr (st st2 : Store) (v : String)
    (hr : st2.readFails (getNotesKey v) = st.readFails (getNotesKey v))
    (hd : st2.data (getNotesKey v) = st.data (getNotesKey v)) :
    getNotes st2 v = getNotes st v := by
  unfold getNotes Store.getItem
  rw [hr, hd]

/-- Reading back a healthy key holding a notes array yields that array. -/
theorem getNotes_of_cell (st : Store) (u : String)
    (hr : st.readFails (getNotesKey u) = false) (ns : List Note)
    (hd : st.data (getNotesKey u) = Cell.notesVal ns) :
    getNotes st u = ns := by
  simp [getNotes, Store.getItem, hr, hd]

/-- Distinct usernames have distinct collection keys. -/
theorem getNotesKey_inj {u v : String} (h : getNotesKey u = getNotesKey v) :
    u = v := by
  have hd := congrArg String.data h
  rw [getNotesKey, getNotesKey, String.data_append, String.data_append] at hd
  exact String.ext (List.append_cancel_left hd)

/-! ### Helper lemmas about lists of notes -/

/-- `find?` on a collection split at its first id match returns that
match. -/
theorem find?_first_match (pre : List Note) (note : Note) (post : List Note)
    (noteId : String)
    (hpre : ∀ n ∈ pre, (n.id == noteId) = false)
    (hnote : (note.id == noteId) = true) :
    List.find? (fun n => n.id == noteId) (pre ++ note :: post) = some note := by
  induction pre with
  | nil => simp [List.find?_cons, hnote]
  | cons m rest ih =>
    have hm := hpre m (List.mem_cons_self m rest)
    have ih2 := ih (fun x hx => hpre x (List.mem_cons_of_mem m hx))
    simp only [List.cons_append, List.find?_cons, hm, ih2]

/-- `updateFirst` on a collection split at its first id match replaces
exactly that element. -/
theorem updateFirst_first_match (pre : List Note) (note : Note) (post : List Note)
    (noteId : String) (updates : NoteUpdates) (now : Nat)
    (hpre : ∀ n ∈ pre, (n.id == noteId) = false)
    (hnote : (note.id == noteId) = true) :
    updateFirst (pre ++ note :: post) noteId updates now =
      some (pre ++ applyUpdates note updates now :: post,
        applyUpdates note updates now) := by
  induction pre with
  | nil => simp [updateFirst, hnote]
  | cons m rest ih =>
    have hm := hpre m (List.mem_cons_self m rest)
    have ih2 := ih (fun x hx => hpre x (List.mem_cons_of_mem m hx))
    simp [updateFirst, hm, ih2]

/-- Nothing surviving the delete filter still matches the deleted id. -/
theorem find?_filter_ne (notes : List Note) (noteId : String) :
    List.find? (fun n => n.id == noteId)
      (List.filter (fun n => n.id != noteId) notes) = none := by
  rw [List.find?_eq_none]
  intro x hx
  have hmem := (List.mem_filter.mp hx).2
  simp only [bne_iff_ne, ne_eq] at hmem
  simp [hmem]

/-! ### The generated id is never empty -/

theorem toDigitsCore_length_le (b : Nat) :
    ∀ (fuel n : Nat) (ds : List Char),
      ds.length ≤ (Nat.toDigitsCore b fuel n ds).length := by
  intro fuel
  induction fuel with
  | zero => intro n ds; simp [Nat.toDigitsCore]
  | succ fuel ih =>
    intro n ds
    simp only [Nat.toDigitsCore]
    by_cases h : n / b = 0
    · simp [h]
    · simp only [h, if_false]
      exact Nat.le_trans (Nat.le_succ _) (ih (n / b) ((n % b).digitChar :: ds))

theorem toDigitsCore_length_pos (b fuel n : Nat) (ds : List Char)
    (h : 0 < fuel) : 0 < (Nat.toDigitsCore b fuel n ds).length := by
  match fuel, h with
  | fuel + 1, _ =>
    simp only [Nat.toDigitsCore]
    by_cases h2 : n / b = 0
    · simp [h2]
    · simp only [h2, if_false]
      exact Nat.lt_of_lt_of_le (Nat.succ_pos _)
        (toDigitsCore_length_le b fuel (n / b) ((n % b).digitChar :: ds))

/-- The decimal rendering of a natural number is never the empty string. -/
theorem repr_ne_empty (n : Nat) : Nat.repr n ≠ "" := by
  intro h
  have hdata : (Nat.repr n).data = [] := by rw [h]
  have hrepr : (Nat.repr n).data = Nat.toDigitsCore 10 (n + 1) n [] := rfl
  have hpos := toDigitsCore_length_pos 10 (n + 1) n [] (Nat.succ_pos n)
  rw [hrepr] at hdata
  rw [hdata] at hpos
  exact Nat.lt_irrefl 0 hpos

/-- `Date.now().toString() + suffix` is never the empty string. -/
theorem genId_ne_empty (now : Nat) (suffix : String) : genId now suffix ≠ "" := by
  intro h
  have hdata := congrArg String.data h
  rw [genId, String.data_append] at hdata
  have h1 : (Nat.repr now).data = [] := (List.append_eq_nil.mp hdata).1
  exact repr_ne_empty now (String.ext h1)

/-! ### `includes` is substring occurrence -/

/-- `containsSub hay pat` decides exactly whether `pat` occurs contiguously
inside `hay`, i.e. the `IsInfix` relation. -/
theorem containsSub_iff_occurs (hay pat : List Char) :
    containsSub hay pat = true ↔ pat <:+: hay := by
  induction hay with
  | nil =>
    simp [containsSub, List.isEmpty_iff, List.infix_nil]
  | cons c rest ih =>
    simp [containsSub, List.infix_cons_iff, List.isPrefixOf_iff_prefix, ih]

/-- Reading back a collection just written by a successful `setItem`
yields exactly the written collection. -/
theorem getNotes_after_set (st st2 : Store) (u : String) (ns : List Note)
    (hr : st.readFails (getNotesKey u) = false)
    (h : st.setItem (getNotesKey u) (Cell.notesVal ns) = some st2) :
    getNotes st2 u = ns := by
  obtain ⟨hd, hrf, _⟩ := setItem_some_spec st _ _ _ h
  refine getNotes_of_cell st2 u (by rw [hrf]; exact hr) ns ?_
  rw [hd]
  simp

/-- A nonempty `getNotes` result can only come from a healthy read of a
well-formed notes array: every degraded branch returns `[]`. -/
theorem getNotes_nonempty_inv (st : Store) (u : String)
    (hne : getNotes st u ≠ []) :
    st.readFails (getNotesKey u) = false ∧
    st.data (getNotesKey u) = Cell.notesVal (getNotes st u) := by
  unfold getNotes Store.getItem at *
  by_cases hr : st.readFails (getNotesKey u)
  · simp [hr] at hne
  · simp only [hr, Bool.false_eq_true, if_false] at *
    cases hd : st.data (getNotesKey u) <;> simp [hd] at *

/-! ### Concrete fixtures for the closed statements below -/

/-- A store with every key absent and no faults. -/
def emptyStore : Store :=
  { data := fun _ => Cell.absent,
    readFails := fun _ => false,
    writeFails := fun _ => false }

def exNoteA : Note :=
  { id := "a1", title := "Groceries", body := "milk and eggs",
    imageUri := none, createdAt := 100, updatedAt := 100 }

def exNoteB : Note :=
  { id := "b2", title := "Draft", body := "hello world",
    imageUri := some "img://1", createdAt := 50, updatedAt := 120 }

/-- A second note carrying the same id as `exNoteA`. -/
def exNoteDupA : Note :=
  { id := "a1", title := "Second", body := "same id twice",
    imageUri := none, createdAt := 60, updatedAt := 60 }

/-- A fault-free store holding exactly `ns` under `u`'s collection key. -/
def storeWith (u : String) (ns : List Note) : Store :=
  { emptyStore with
    data := fun q => if q = getNotesKey u then Cell.notesVal ns else Cell.absent }

/-- A fault-free store holding exactly `us` under the account-list key. -/
def storeWithUsers (us : List User) : Store :=
  { emptyStore with
    data := fun q => if q = USERS_KEY then Cell.usersVal us else Cell.absent }

/-! ### Claim theorems -/

/-- C1 (code bug): the `throw new Error('Note not found')` of `updateNote`
sits inside the `try` block, so its own `catch` catches it and throws
`'Failed to update note'` instead.  The caller therefore receives the very
same error for a missing note id as for a failed storage write: the
NotFound failure is not distinct from the PersistFailed one. -/
theorem updateNote_missing_id_error_equals_write_failure_error :
    (updateNote emptyStore "alice" "missing" ⟨some "C", none, none⟩ 5).2 =
      Except.error "Failed to update note" ∧
    (updateNote
        { storeWith "alice" [exNoteA] with
          writeFails := fun q => q == getNotesKey "alice" }
        "alice" "a1" ⟨some "C", none, none⟩ 5).2 =
      Except.error "Failed to update note" :=
  ⟨rfl, rfl⟩

/-- C2 counterexample: an update issued at the same millisecond as the
note's previous `updatedAt` (here both `100`) leaves `updatedAt` equal to
its previous value, not strictly greater — the code merely forces
`updatedAt = Date.now()`. -/
theorem updateNote_same_tick_updatedAt_not_strictly_greater :
    (updateNote (storeWith "alice" [exNoteA]) "alice" "a1"
        ⟨some "C", none, none⟩ 100).2 =
      Except.ok { exNoteA with title := "C", updatedAt := 100 } ∧
    ¬ exNoteA.updatedAt <
        ({ exNoteA with title := "C", updatedAt := 100 } : Note).updatedAt :=
  ⟨rfl, by decide⟩

/-- C2 (amended): a title-only update of the first note matching the id
rewrites exactly that note's `title` and `updatedAt`, with `updatedAt` set
to the update's clock reading — hence strictly greater than the previous
`updatedAt` whenever the clock has advanced past it — and leaves `id`,
`createdAt`, `body`, `imageUri`, and every other note of the collection
unchanged. -/
theorem updateNote_title_only_frame (st : Store) (username noteId t : String)
    (pre post : List Note) (note : Note) (now : Nat)
    (hcoll : getNotes st username = pre ++ note :: post)
    (hpre : ∀ n ∈ pre, (n.id == noteId) = false)
    (hid : (note.id == noteId) = true)
    (hw : st.writeFails (getNotesKey username) = false) :
    (updateNote st username noteId ⟨some t, none, none⟩ now).2 =
      Except.ok { note with title := t, updatedAt := now } ∧
    getNotes (updateNote st username noteId ⟨some t, none, none⟩ now).1 username =
      pre ++ { note with title := t, updatedAt := now } :: post ∧
    (note.updatedAt < now →
      note.updatedAt <
        ({ note with title := t, updatedAt := now } : Note).updatedAt) := by
  have hne : getNotes st username ≠ [] := by simp [hcoll]
  obtain ⟨hr, _⟩ := getNotes_nonempty_inv st username hne
  have happly : applyUpdates note ⟨some t, none, none⟩ now =
      { note with title := t, updatedAt := now } := rfl
  have hfirst := updateFirst_first_match pre note post noteId
    ⟨some t, none, none⟩ now hpre hid
  rw [happly] at hfirst
  have hset := setItem_of_writeOk st (getNotesKey username)
    (Cell.notesVal (pre ++ { note with title := t, updatedAt := now } :: post)) hw
  refine ⟨?_, ?_, fun h => h⟩
  · simp [updateNote, hcoll, hfirst, hset]
  · simp only [updateNote, hcoll, hfirst, hset]
    exact getNotes_of_cell _ username (by simpa using hr) _ (by simp)

/-- C3 counterexample: when the millisecond clock ticks between the
`createdAt` read and the `updatedAt` read of `createNote` (readings `7`
and `8` here), the successfully created and re-fetched note has
`createdAt ≠ updatedAt`, so the round-trip does not return a note with
`createdAt` equal to `updatedAt` as the claim states. -/
theorem createNote_tick_between_stamps :
    (createNote emptyStore "alice" ⟨"A", "B", none⟩ 7 7 8 "xyz").2 =
      Except.ok { id := genId 7 "xyz", title := "A", body := "B",
                  imageUri := none, createdAt := 7, updatedAt := 8 } ∧
    getNote (createNote emptyStore "alice" ⟨"A", "B", none⟩ 7 7 8 "xyz").1
        "alice" (genId 7 "xyz") =
      some { id := genId 7 "xyz", title := "A", body := "B",
             imageUri := none, createdAt := 7, updatedAt := 8 } ∧
    ¬ ({ id := genId 7 "xyz", title := "A", body := "B", imageUri := none,
         createdAt := 7, updatedAt := 8 } : Note).createdAt =
      ({ id := genId 7 "xyz", title := "A", body := "B", imageUri := none,
         createdAt := 7, updatedAt := 8 } : Note).updatedAt :=
  ⟨rfl, rfl, by decide⟩

/-- C3 (amended): with a healthy collection key and a freshly generated
id, a successful `createNote` followed by `getNote` on the returned id
yields the created note itself: same `title` and `body`, a non-empty id,
and `createdAt` and `updatedAt` each equal to the respective `Date.now()`
reading — hence equal to each other whenever the millisecond clock does
not tick between those two reads. -/
theorem createNote_then_getNote_roundtrip (st : Store) (username : String)
    (fields : NoteFields) (nowId nowCreated nowUpdated : Nat)
    (suffix : String)
    (hw : st.writeFails (getNotesKey username) = false)
    (hr : st.readFails (getNotesKey username) = false)
    (hfresh : ∀ n ∈ getNotes st username,
      (n.id == genId nowId suffix) = false) :
    (createNote st username fields nowId nowCreated nowUpdated suffix).2 =
      Except.ok { id := genId nowId suffix, title := fields.title,
                  body := fields.body, imageUri := fields.imageUri,
                  createdAt := nowCreated, updatedAt := nowUpdated } ∧
    getNote (createNote st username fields nowId nowCreated nowUpdated
        suffix).1 username (genId nowId suffix) =
      some { id := genId nowId suffix, title := fields.title,
             body := fields.body, imageUri := fields.imageUri,
             createdAt := nowCreated, updatedAt := nowUpdated } ∧
    (nowCreated = nowUpdated →
      ({ id := genId nowId suffix, title := fields.title,
         body := fields.body, imageUri := fields.imageUri,
         createdAt := nowCreated, updatedAt := nowUpdated } : Note).createdAt =
        ({ id := genId nowId suffix, title := fields.title,
           body := fields.body, imageUri := fields.imageUri,
           createdAt := nowCreated,
           updatedAt := nowUpdated } : Note).updatedAt) ∧
    genId nowId suffix ≠ "" := by
  have hset := setItem_of_writeOk st (getNotesKey username)
    (Cell.notesVal (getNotes st username ++
      [{ id := genId nowId suffix, title := fields.title,
         body := fields.body, imageUri := fields.imageUri,
         createdAt := nowCreated, updatedAt := nowUpdated }])) hw
  have hget := getNotes_after_set st _ username _ hr hset
  refine ⟨?_, ?_, fun h => h, genId_ne_empty nowId suffix⟩
  · simp [createNote, hset]
  · simp only [createNote, hset]
    rw [getNote, hget]
    exact find?_first_match (getNotes st username) _ [] (genId nowId suffix)
      hfresh (by simp)

/-- C4: `signUp` with a username already present in the stored account
list (exact string match) returns the duplicate-username failure and
returns the store untouched: no write happens, the account list keeps its
length and contents. -/
theorem signUp_duplicate_leaves_store_unchanged (st : Store)
    (username password : String) (us : List User)
    (hr : st.readFails USERS_KEY = false)
    (hd : st.data USERS_KEY = Cell.usersVal us)
    (hdup : us.any (fun user => user.username == username) = true) :
    signUp st username password =
      (st, ⟨false, some "Username already exists"⟩) := by
  simp [signUp, readUsers, Store.getItem, hr, hd, hdup]

/-- C5: `login` with a registered username but wrong password and `login`
with a username absent from the account list produce the identical
failure result `'Invalid username or password'` and leave the store
untouched, so the two cases are indistinguishable to the caller. -/
theorem login_failures_indistinguishable (st : Store) (u1 p1 u2 p2 : String)
    (us : List User)
    (hr : st.readFails USERS_KEY = false)
    (hd : st.data USERS_KEY = Cell.usersVal us)
    (_hreg : us.any (fun user => user.username == u1) = true)
    (hwrong : List.find?
      (fun x => x.username == u1 && x.password == p1) us = none)
    (hunknown : us.all (fun user => user.username != u2) = true) :
    login st u1 p1 = (st, ⟨false, some "Invalid username or password"⟩) ∧
    login st u2 p2 = (st, ⟨false, some "Invalid username or password"⟩) ∧
    login st u1 p1 = login st u2 p2 := by
  have h2 : List.find? (fun x => x.username == u2 && x.password == p2) us
      = none := by
    rw [List.find?_eq_none]
    intro x hx
    have hu := List.all_eq_true.mp hunknown x hx
    simp only [bne_iff_ne, ne_eq] at hu
    simp [hu]
  refine ⟨?_, ?_, ?_⟩ <;>
    simp [login, readUsers, Store.getItem, hr, hd, hwrong, h2]

/-- C6: `getNotes` (the spec's `listNotes`) returns the empty sequence
rather than an error whenever the collection key is absent, the stored
value is malformed, or the underlying store read throws. -/
theorem listNotes_degrades_to_empty (st : Store) (username : String)
    (h : st.readFails (getNotesKey username) = true ∨
      st.data (getNotesKey username) = Cell.absent ∨
      st.data (getNotesKey username) = Cell.malformed) :
    getNotes st username = [] := by
  rcases h with h | h | h
  · simp [getNotes, Store.getItem, h]
  · by_cases hr : st.readFails (getNotesKey username) <;>
      simp [getNotes, Store.getItem, hr, h]
  · by_cases hr : st.readFails (getNotesKey username) <;>
      simp [getNotes, Store.getItem, hr, h]

/-- C7: with an empty or whitespace-only query the filter stage returns
the input unchanged; with a non-blank query it returns exactly the notes
whose lowercased title or lowercased body contains the lowercased query
as a contiguous substring, hence the empty sequence when nothing
matches. -/
theorem filterNotes_spec (notes : List Note) (query : String) :
    ((∀ c ∈ query.data, c.isWhitespace = true) →
      filterNotes notes query = notes) ∧
    (queryNonBlank query = true →
      filterNotes notes query =
        List.filter (noteMatches (lowerStr query)) notes ∧
      ∀ n, n ∈ filterNotes notes query ↔
        n ∈ notes ∧
          ((lowerStr query).data <:+: (lowerStr n.title).data ∨
            (lowerStr query).data <:+: (lowerStr n.body).data)) ∧
    (queryNonBlank query = true →
      notes.all (fun n => !noteMatches (lowerStr query) n) = true →
      filterNotes notes query = []) := by
  refine ⟨?_, ?_, ?_⟩
  · intro h
    have hb : queryNonBlank query = false := by
      simp only [queryNonBlank, List.any_eq_false]
      intro c hc
      simp [h c hc]
    simp [filterNotes, hb]
  · intro hb
    have hfe : filterNotes notes query =
        List.filter (noteMatches (lowerStr query)) notes := by
      simp [filterNotes, hb]
    refine ⟨hfe, fun n => ?_⟩
    rw [hfe, List.mem_filter]
    constructor
    · rintro ⟨hmem, hmatch⟩
      refine ⟨hmem, ?_⟩
      rcases Bool.or_eq_true _ _ |>.mp hmatch with h | h
      · exact Or.inl ((containsSub_iff_occurs _ _).mp h)
      · exact Or.inr ((containsSub_iff_occurs _ _).mp h)
    · rintro ⟨hmem, h | h⟩
      · refine ⟨hmem, ?_⟩
        simp only [noteMatches, strIncludes, Bool.or_eq_true]
        exact Or.inl ((containsSub_iff_occurs _ _).mpr h)
      · refine ⟨hmem, ?_⟩
        simp only [noteMatches, strIncludes, Bool.or_eq_true]
        exact Or.inr ((containsSub_iff_occurs _ _).mpr h)
  · intro hb hall
    simp only [filterNotes, hb, if_true]
    rw [List.filter_eq_nil_iff]
    intro a ha
    have := List.all_eq_true.mp hall a ha
    simpa using this

/-- C8: with a healthy write path, `deleteNote` succeeds for any id
(present or not), a subsequent `getNote` on that id is absent, and a
second `deleteNote` on the same id succeeds again: deletion is
idempotent. -/
theorem deleteNote_idempotent_and_absent (st : Store) (username noteId : String)
    (hw : st.writeFails (getNotesKey username) = false) :
    (deleteNote st username noteId).2 = Except.ok () ∧
    getNote (deleteNote st username noteId).1 username noteId = none ∧
    (deleteNote (deleteNote st username noteId).1 username noteId).2 =
      Except.ok () := by
  have hset := setItem_of_writeOk st (getNotesKey username)
    (Cell.notesVal (List.filter (fun n => n.id != noteId)
      (getNotes st username))) hw
  refine ⟨by simp [deleteNote, hset], ?_, ?_⟩
  · simp only [deleteNote, hset]
    rw [getNote]
    by_cases hr : st.readFails (getNotesKey username)
    · simp [getNotes, Store.getItem, hr]
    · rw [getNotes_after_set st _ username _ (by simp [hr]) hset]
      exact find?_filter_ne _ _
  · simp only [deleteNote, hset]
    simp [deleteNote, Store.setItem, hw]

/-- C9: note operations are isolated per username.  Distinct usernames
map to distinct collection keys, and `createNote`, `updateNote`, and
`deleteNote` scoped to `u` leave the collection key of any other username
`v` — and hence the `getNotes` (`listNotes`) result for `v` — exactly as
it was, so notes created under `u` are never returned for `v`. -/
theorem noteStore_operations_isolated (st : Store) (u v : String)
    (huv : u ≠ v) (fields : NoteFields) (updates : NoteUpdates)
    (nowId nowCreated nowUpdated now : Nat) (suffix noteId : String) :
    getNotesKey u ≠ getNotesKey v ∧
    (createNote st u fields nowId nowCreated nowUpdated suffix).1.data
      (getNotesKey v) = st.data (getNotesKey v) ∧
    getNotes (createNote st u fields nowId nowCreated nowUpdated suffix).1 v =
      getNotes st v ∧
    (updateNote st u noteId updates now).1.data (getNotesKey v) =
      st.data (getNotesKey v) ∧
    getNotes (updateNote st u noteId updates now).1 v = getNotes st v ∧
    (deleteNote st u noteId).1.data (getNotesKey v) = st.data (getNotesKey v) ∧
    getNotes (deleteNote st u noteId).1 v = getNotes st v := by
  have hkey : getNotesKey v ≠ getNotesKey u :=
    fun h => huv (getNotesKey_inj h).symm
  refine ⟨fun h => huv (getNotesKey_inj h), ?_, ?_, ?_, ?_, ?_, ?_⟩
  · by_cases hw : st.writeFails (getNotesKey u) <;>
      simp [createNote, Store.setItem, hw, hkey]
  · by_cases hw : st.writeFails (getNotesKey u)
    · simp [createNote, Store.setItem, hw]
    · simp only [createNote, Store.setItem, hw, Bool.false_eq_true, if_false]
      exact getNotes_congr st _ v rfl (by simp [hkey])
  · cases hupd : updateFirst (getNotes st u) noteId updates now with
    | none => simp [updateNote, hupd]
    | some p =>
      by_cases hw : st.writeFails (getNotesKey u) <;>
        simp [updateNote, hupd, Store.setItem, hw, hkey]
  · cases hupd : updateFirst (getNotes st u) noteId updates now with
    | none => simp [updateNote, hupd]
    | some p =>
      by_cases hw : st.writeFails (getNotesKey u)
      · simp [updateNote, hupd, Store.setItem, hw]
      · simp only [updateNote, hupd, Store.setItem, hw, Bool.false_eq_true,
          if_false]
        exact getNotes_congr st _ v rfl (by simp [hkey])
  · by_cases hw : st.writeFails (getNotesKey u) <;>
      simp [deleteNote, Store.setItem, hw, hkey]
  · by_cases hw : st.writeFails (getNotesKey u)
    · simp [deleteNote, Store.setItem, hw]
    · simp only [deleteNote, Store.setItem, hw, Bool.false_eq_true, if_false]
      exact getNotes_congr st _ v rfl (by simp [hkey])

/-- C10: in a collection whose first id match is `note` (later duplicates
allowed in `post`), `getNote` returns that first match, `updateNote`
rewrites only that first match and leaves `post` — duplicates included —
untouched, while `deleteNote` removes every note whose id matches. -/
theorem duplicate_id_first_match_semantics (st : Store)
    (username noteId : String) (pre post : List Note) (note : Note)
    (updates : NoteUpdates) (now : Nat)
    (hcoll : getNotes st username = pre ++ note :: post)
    (hpre : ∀ n ∈ pre, (n.id == noteId) = false)
    (hid : (note.id == noteId) = true)
    (hw : st.writeFails (getNotesKey username) = false) :
    getNote st username noteId = some note ∧
    getNotes (updateNote st username noteId updates now).1 username =
      pre ++ applyUpdates note updates now :: post ∧
    getNotes (deleteNote st username noteId).1 username =
      List.filter (fun n => n.id != noteId) (pre ++ note :: post) ∧
    List.all (getNotes (deleteNote st username noteId).1 username)
      (fun n => n.id != noteId) = true := by
  have hne : getNotes st username ≠ [] := by simp [hcoll]
  obtain ⟨hr, _⟩ := getNotes_nonempty_inv st username hne
  have hfirst := updateFirst_first_match pre note post noteId updates now
    hpre hid
  have hsetu := setItem_of_writeOk st (getNotesKey username)
    (Cell.notesVal (pre ++ applyUpdates note updates now :: post)) hw
  have hsetd := setItem_of_writeOk st (getNotesKey username)
    (Cell.notesVal (List.filter (fun n => n.id != noteId)
      (getNotes st username))) hw
  have hdel : getNotes (deleteNote st username noteId).1 username =
      List.filter (fun n => n.id != noteId) (pre ++ note :: post) := by
    simp only [deleteNote, hsetd]
    rw [getNotes_after_set st _ username _ hr hsetd, hcoll]
  refine ⟨?_, ?_, hdel, ?_⟩
  · rw [getNote, hcoll]
    exact find?_first_match pre note post noteId hpre hid
  · simp only [updateNote, hcoll, hfirst, hsetu]
    exact getNotes_after_set st _ username _ hr hsetu
  · rw [hdel, List.all_eq_true]
    intro a ha
    exact of_decide_eq_true (by
      have := (List.mem_filter.mp ha).2
      simpa using this)

/-! ### Closed witnesses instantiating the hypothesis-bearing theorems -/

/-- Witness for C2 (amended) at a concrete store: collection
`[exNoteB, exNoteA]`, title-only update of `"a1"` at time `150`. -/
theorem updateNote_title_only_frame_witness :
    (updateNote (storeWith "alice" [exNoteB, exNoteA]) "alice" "a1"
        ⟨some "C", none, none⟩ 150).2 =
      Except.ok { exNoteA with title := "C", updatedAt := 150 } ∧
    getNotes (updateNote (storeWith "alice" [exNoteB, exNoteA]) "alice" "a1"
        ⟨some "C", none, none⟩ 150).1 "alice" =
      [exNoteB] ++ { exNoteA with title := "C", updatedAt := 150 } :: [] ∧
    (exNoteA.updatedAt < 150 →
      exNoteA.updatedAt <
        ({ exNoteA with title := "C", updatedAt := 150 } : Note).updatedAt) :=
  updateNote_title_only_frame (storeWith "alice" [exNoteB, exNoteA])
    "alice" "a1" "C" [exNoteB] [] exNoteA 150 (by decide) (by decide)
    (by decide) (by decide)

/-- Witness for C3 (amended) at a concrete store with one pre-existing
note, with the clock reading `7` at all three `Date.now()` calls. -/
theorem createNote_then_getNote_roundtrip_witness :
    (createNote (storeWith "alice" [exNoteA]) "alice" ⟨"A", "B", none⟩
        7 7 7 "xyz").2 =
      Except.ok { id := genId 7 "xyz", title := "A", body := "B",
                  imageUri := none, createdAt := 7, updatedAt := 7 } ∧
    getNote (createNote (storeWith "alice" [exNoteA]) "alice" ⟨"A", "B", none⟩
        7 7 7 "xyz").1 "alice" (genId 7 "xyz") =
      some { id := genId 7 "xyz", title := "A", body := "B",
             imageUri := none, createdAt := 7, updatedAt := 7 } ∧
    ((7 : Nat) = 7 →
      ({ id := genId 7 "xyz", title := "A", body := "B", imageUri := none,
         createdAt := 7, updatedAt := 7 } : Note).createdAt =
        ({ id := genId 7 "xyz", title := "A", body := "B", imageUri := none,
           createdAt := 7, updatedAt := 7 } : Note).updatedAt) ∧
    genId 7 "xyz" ≠ "" :=
  createNote_then_getNote_roundtrip (storeWith "alice" [exNoteA]) "alice"
    ⟨"A", "B", none⟩ 7 7 7 "xyz" (by decide) (by decide) (by decide)

/-- Witness for C4: registering `"alice"` twice. -/
theorem signUp_duplicate_leaves_store_unchanged_witness :
    signUp (storeWithUsers [⟨"alice", "pw"⟩]) "alice" "other" =
      (storeWithUsers [⟨"alice", "pw"⟩],
        ⟨false, some "Username already exists"⟩) :=
  signUp_duplicate_leaves_store_unchanged (storeWithUsers [⟨"alice", "pw"⟩])
    "alice" "other" [⟨"alice", "pw"⟩] (by decide) (by decide) (by decide)

/-- Witness for C5: wrong password for registered `"alice"` versus the
unknown username `"bob"`. -/
theorem login_failures_indistinguishable_witness :
    login (storeWithUsers [⟨"alice", "pw"⟩]) "alice" "bad" =
      (storeWithUsers [⟨"alice", "pw"⟩],
        ⟨false, some "Invalid username or password"⟩) ∧
    login (storeWithUsers [⟨"alice", "pw"⟩]) "bob" "pw" =
      (storeWithUsers [⟨"alice", "pw"⟩],
        ⟨false, some "Invalid username or password"⟩) ∧
    login (storeWithUsers [⟨"alice", "pw"⟩]) "alice" "bad" =
      login (storeWithUsers [⟨"alice", "pw"⟩]) "bob" "pw" :=
  login_failures_indistinguishable (storeWithUsers [⟨"alice", "pw"⟩])
    "alice" "bad" "bob" "pw" [⟨"alice", "pw"⟩] (by decide) (by decide)
    (by decide) (by decide) (by decide)

/-- Witness for C6 at the store with every key absent. -/
theorem listNotes_degrades_to_empty_witness :
    getNotes emptyStore "alice" = [] :=
  listNotes_degrades_to_empty emptyStore "alice" (Or.inr (Or.inl (by decide)))

/-- Witness for C7: a whitespace-only query returns the input unchanged,
and a non-blank query admits a note exactly when the lowercased query
occurs inside its lowercased title or body. -/
theorem filterNotes_spec_witness :
    filterNotes [exNoteA, exNoteB] "  " = [exNoteA, exNoteB] ∧
    (exNoteB ∈ filterNotes [exNoteA, exNoteB] "Draft" ↔
      exNoteB ∈ [exNoteA, exNoteB] ∧
        ((lowerStr "Draft").data <:+: (lowerStr exNoteB.title).data ∨
          (lowerStr "Draft").data <:+: (lowerStr exNoteB.body).data)) :=
  ⟨(filterNotes_spec [exNoteA, exNoteB] "  ").1 (by decide),
    ((filterNotes_spec [exNoteA, exNoteB] "Draft").2.1 (by decide)).2 exNoteB⟩

/-- Witness for C8: deleting `"a1"` from a two-note collection. -/
theorem deleteNote_idempotent_and_absent_witness :
    (deleteNote (storeWith "alice" [exNoteA, exNoteB]) "alice" "a1").2 =
      Except.ok () ∧
    getNote (deleteNote (storeWith "alice" [exNoteA, exNoteB]) "alice"
        "a1").1 "alice" "a1" = none ∧
    (deleteNote (deleteNote (storeWith "alice" [exNoteA, exNoteB]) "alice"
        "a1").1 "alice" "a1").2 = Except.ok () :=
  deleteNote_idempotent_and_absent (storeWith "alice" [exNoteA, exNoteB])
    "alice" "a1" (by decide)

/-- Witness for C9: a note created under `"alice"` does not change what
`getNotes` returns for `"bob"`. -/
theorem noteStore_operations_isolated_witness :
    getNotes (createNote (storeWith "alice" [exNoteA]) "alice"
        ⟨"A", "B", none⟩ 5 5 6 "xyz").1 "bob" =
      getNotes (storeWith "alice" [exNoteA]) "bob" :=
  (noteStore_operations_isolated (storeWith "alice" [exNoteA]) "alice" "bob"
    (by decide) ⟨"A", "B", none⟩ ⟨some "C", none, none⟩ 5 5 6 5 "xyz"
    "a1").2.2.1

/-- Witness for C10 on a collection holding two notes with the same id
`"a1"`. -/
theorem duplicate_id_first_match_semantics_witness :
    getNote (storeWith "alice" [exNoteA, exNoteDupA]) "alice" "a1" =
      some exNoteA ∧
    getNotes (updateNote (storeWith "alice" [exNoteA, exNoteDupA]) "alice"
        "a1" ⟨some "C", none, none⟩ 5).1 "alice" =
      [] ++ applyUpdates exNoteA ⟨some "C", none, none⟩ 5 :: [exNoteDupA] ∧
    getNotes (deleteNote (storeWith "alice" [exNoteA, exNoteDupA]) "alice"
        "a1").1 "alice" =
      List.filter (fun n => n.id != "a1")
        ([] ++ exNoteA :: [exNoteDupA]) ∧
    List.all (getNotes (deleteNote (storeWith "alice" [exNoteA, exNoteDupA])
        "alice" "a1").1 "alice") (fun n => n.id != "a1") = true :=
  duplicate_id_first_match_semantics (storeWith "alice" [exNoteA, exNoteDupA])
    "alice" "a1" [] [exNoteDupA] exNoteA ⟨some "C", none, none⟩ 5
    (by decide) (by decide) (by decide) (by decide)

end Highway
